import Mathlib

/-!
Shallow embedding of the real-time chat backend (src/server.js): the
connection registry (the `onlineUsers` object), per-socket state, the
persisted message store, and the socket event handlers `joinRoom`,
`sendMessage`, `registerPushToken` and `disconnect`, together with the
events they emit.  The `await Message.find(...)` suspension point inside
`joinRoom` is made explicit by splitting the handler into the part before
the await (`joinPhase1`) and the part after it (`joinPhase2`); the
uninterleaved handler `joinRoom` is their sequential composition.
-/

/-- One entry of the `onlineUsers` registry: the object
`{ username, room, socketId, pushToken }` stored by the `joinRoom`
handler (src/server.js lines 67-72). -/
structure Session where
  username : String
  room : String
  socketId : String
  pushToken : Option String
  deriving DecidableEq

/-- A persisted chat message as server.js builds it
(`{ username, room, message, timestamp }`); timestamps are modelled as
naturals (milliseconds since the epoch). -/
structure Message where
  username : String
  room : String
  message : String
  timestamp : Nat
  deriving DecidableEq

/-- Per-socket mutable state: `socket.id`, the fields `socket.username`,
`socket.room`, `socket.pushToken` the handlers assign, and the
transport-level rooms the socket has entered via `socket.join`. -/
structure Socket where
  id : String
  username : Option String
  room : Option String
  pushToken : Option String
  joinedRooms : List String
  deriving DecidableEq

/-- The registry `const onlineUsers = {}` (src/server.js line 44): a
JavaScript object keyed by socket id, modelled as an association list in
key insertion order (`Object.values` enumerates non-numeric keys in
insertion order). -/
abbrev Registry := List (String × Session)

/-- Reading `onlineUsers[id]`. -/
def regLookup (reg : Registry) (id : String) : Option Session :=
  (reg.find? (fun p => p.1 == id)).map Prod.snd

/-- `onlineUsers[id] = s`: overwrite in place when the key is present
(keeping its position), append otherwise — JavaScript object assignment. -/
def upsert : Registry → String → Session → Registry
  | [], id, s => [(id, s)]
  | p :: rest, id, s => if p.1 == id then (p.1, s) :: rest else p :: upsert rest id s

/-- `delete onlineUsers[id]`. -/
def removeId (reg : Registry) (id : String) : Registry :=
  reg.filter (fun p => p.1 != id)

/-- `Object.values(onlineUsers).filter(user => user.room === room)`. -/
def membersOf (reg : Registry) (room : String) : List Session :=
  (reg.map Prod.snd).filter (fun u => u.room == room)

/-- JavaScript truthiness of an optional string (`null`/`undefined` and
the empty string are falsy). -/
def jsTruthy : Option String → Bool
  | none => false
  | some s => s != ""

/-- The JavaScript expression `x || null`. -/
def orNull (o : Option String) : Option String :=
  if jsTruthy o then o else none

/-- Chronological order on messages, the sort key of
`Message.find({ room }).sort({ timestamp: 1 })`. -/
def tsLe (a b : Message) : Prop := a.timestamp ≤ b.timestamp

instance : DecidableRel tsLe := fun a b => Nat.decLe a.timestamp b.timestamp

instance : IsTotal Message tsLe := ⟨fun a b => Nat.le_total a.timestamp b.timestamp⟩

instance : IsTrans Message tsLe := ⟨fun _ _ _ => Nat.le_trans⟩

/-- `Message.find({ room }).sort({ timestamp: 1 }).limit(50)`
(src/server.js line 78): the room's messages in ascending timestamp
order (ties by insertion order — a stable sort), truncated to the FIRST
fifty of that ascending order. -/
def historyQuery (db : List Message) (room : String) : List Message :=
  ((db.filter (fun m => m.room == room)).insertionSort tsLe).take 50

/-- An event emitted by a handler: `socket.emit('chatHistory', ...)`
private to one socket, `io.to(room).emit('message', ...)` room-wide, and
`io.to(room).emit('onlineUsers', ...)` room-wide. -/
inductive Event where
  | chatHistory (targetSocket : String) (msgs : List Message)
  | message (room : String) (username : String) (body : String)
      (timestamp : Nat) (isSystem : Bool)
  | onlineUsers (room : String) (users : List Session)
  deriving DecidableEq

/-- The server's shared mutable state: the `onlineUsers` registry, the
Mongo message collection (append-only, in insertion order), and the
console log. -/
structure ServerState where
  onlineUsers : Registry
  db : List Message
  logs : List String
  deriving DecidableEq

/-- `socket.join(room)`: transport-level room entry; idempotent, and
nothing in the server ever calls `socket.leave`. -/
def socketJoin (sock : Socket) (room : String) : Socket :=
  if sock.joinedRooms.contains room then sock
  else { sock with joinedRooms := sock.joinedRooms ++ [room] }

/-- Whether `io.to(room).emit(...)` delivers to this socket: the socket
is a transport-level member of the room. -/
def inBroadcast (room : String) (sock : Socket) : Bool :=
  sock.joinedRooms.contains room

/-- The `joinRoom` handler up to its only suspension point, the
`await Message.find(...)` (src/server.js lines 62-75): `socket.join`,
the socket field assignments, the registry upsert, and the `roomUsers`
snapshot taken from the registry.  Returns the mutated state, the
mutated socket and the snapshot. -/
def joinPhase1 (st : ServerState) (sock : Socket) (username room : String) :
    ServerState × Socket × List Session :=
  let sock2 : Socket :=
    { socketJoin sock room with username := some username, room := some room }
  let sess : Session :=
    { username := username, room := room, socketId := sock2.id,
      pushToken := orNull sock2.pushToken }
  let reg1 := upsert st.onlineUsers sock2.id sess
  ({ st with onlineUsers := reg1 }, sock2, membersOf reg1 room)

/-- The `joinRoom` handler after the await resolves (src/server.js lines
81-92): the private `chatHistory` emit, the system "has joined" message
and the `onlineUsers` broadcast of the snapshot taken in `joinPhase1`. -/
def joinPhase2 (sockId : String) (username room : String)
    (roomUsers : List Session) (history : List Message) (now : Nat) : List Event :=
  [Event.chatHistory sockId history,
   Event.message room "System" (username ++ " has joined the room") now true,
   Event.onlineUsers room roomUsers]

/-- The whole `joinRoom` handler run without interleaving (src/server.js
lines 60-98).  `fetchOk` tells whether the awaited `Message.find`
resolves or rejects; a rejection jumps to the `catch`, which only logs —
everything after the await, including both broadcasts, is skipped. -/
def joinRoom (st : ServerState) (sock : Socket) (username room : String)
    (now : Nat) (fetchOk : Bool) : ServerState × Socket × List Event :=
  let p := joinPhase1 st sock username room
  if fetchOk then
    (p.1, p.2.1, joinPhase2 p.2.1.id username room p.2.2 (historyQuery p.1.db room) now)
  else
    ({ p.1 with logs := p.1.logs ++ ["Error joining room"] }, p.2.1, [])

/-- The `registerPushToken` handler (src/server.js lines 51-57): store
the token on the socket, and on the registry entry when one exists. -/
def registerPushToken (st : ServerState) (sock : Socket) (pushToken : String) :
    ServerState × Socket :=
  let sock1 := { sock with pushToken := some pushToken }
  let reg1 :=
    if (regLookup st.onlineUsers sock.id).isSome then
      st.onlineUsers.map (fun p =>
        if p.1 == sock.id then (p.1, { p.2 with pushToken := some pushToken }) else p)
    else st.onlineUsers
  ({ st with onlineUsers := reg1 }, sock1)

/-- The token string a session hands to `Expo.isExpoPushToken` inside the
dispatch loop (the session reached the loop only with a truthy token). -/
def tokenOf (u : Session) : String := u.pushToken.getD ""

/-- One Expo push message as built at src/server.js lines 137-143. -/
structure PushNotification where
  «to» : String
  sound : String
  title : String
  body : String
  dataRoom : String
  dataUsername : String
  deriving DecidableEq

/-- The `roomUsers` filter of the notification dispatch (src/server.js
lines 123-125): same room, different username, truthy push token. -/
def sendRoomUsers (reg : Registry) (username room : String) : List Session :=
  (reg.map Prod.snd).filter
    (fun u => u.room == room && u.username != username && jsTruthy u.pushToken)

/-- The notification-building loop (src/server.js lines 130-144):
sessions whose token fails `Expo.isExpoPushToken` are logged and skipped
(`continue`); every other session contributes one notification.
`isExpoPushToken` abstracts the Expo SDK's syntactic token check. -/
def buildNotifications (isExpoPushToken : String → Bool)
    (username room body : String) : List Session → List PushNotification × List String
  | [] => ([], [])
  | u :: us =>
    let rest := buildNotifications isExpoPushToken username room body us
    if isExpoPushToken (tokenOf u) then
      ({ «to» := tokenOf u, sound := "default", title := username ++ " in " ++ room,
         body := body, dataRoom := room, dataUsername := username } :: rest.1, rest.2)
    else
      (rest.1, ("Invalid push token: " ++ tokenOf u) :: rest.2)

/-- The `sendMessage` handler (src/server.js lines 101-161).  `now` is
the clock value of the `new Date()` taken when the Message document is
constructed, before `newMessage.save()` is awaited; `saveOk` tells
whether that save resolves.  On failure the `catch` only logs: nothing
is broadcast and no state other than the log changes.  On success the
message is persisted, broadcast with the document's timestamp, and the
push notifications are computed.  Returns (state, emitted events, push
notifications handed to the Expo transport). -/
def sendMessage (st : ServerState) (username room body : String) (now : Nat)
    (saveOk : Bool) (isExpoPushToken : String → Bool) :
    ServerState × List Event × List PushNotification :=
  if saveOk then
    let msg : Message := { username := username, room := room, message := body, timestamp := now }
    let res := buildNotifications isExpoPushToken username room body
      (sendRoomUsers st.onlineUsers username room)
    ({ st with db := st.db ++ [msg], logs := st.logs ++ res.2 },
     [Event.message room username body now false], res.1)
  else
    ({ st with logs := st.logs ++ ["Error sending message"] }, [], [])

/-- The `disconnect` handler (src/server.js lines 169-194): when the
socket has a registry entry it is removed and the "left" system message
and refreshed `onlineUsers` view are broadcast; otherwise nothing
happens. -/
def disconnect (st : ServerState) (sockId : String) (now : Nat) :
    ServerState × List Event :=
  match regLookup st.onlineUsers sockId with
  | none => (st, [])
  | some u =>
    let reg1 := removeId st.onlineUsers sockId
    ({ st with onlineUsers := reg1 },
     [Event.message u.room "System" (u.username ++ " has left the room") now true,
      Event.onlineUsers u.room (membersOf reg1 u.room)])

/-- Two consecutive `joinRoom` turns of the same connection (a room
switch), both with a successful history fetch. -/
def joinTwice (st : ServerState) (sock : Socket) (uA roomA : String) (nowA : Nat)
    (uB roomB : String) (nowB : Nat) : ServerState × Socket × List Event :=
  let r1 := joinRoom st sock uA roomA nowA true
  joinRoom r1.1 r1.2.1 uB roomB nowB true

/-- Modelled from the spec: the Store collaborator interface
`append(room, username, body) -> (assignedTimestamp)` of spec section 6,
whose timestamp is "assigned at persistence time" — the clock value at
the instant the append completes.  The repository's Message model file
(src/models/Message.js) is not among the staged sources; this definition
follows the spec's words for comparison with the handler's behaviour. -/
def specAppend (db : List Message) (username room body : String) (tComplete : Nat) :
    List Message × Nat :=
  (db ++ [{ username := username, room := room, message := body, timestamp := tComplete }],
   tComplete)

/-- Modelled from the spec: "the 50 most recent persisted messages for
`room` ordered oldest-first" — the LAST fifty of the room's messages in
ascending timestamp order. -/
def specMostRecent50 (db : List Message) (room : String) : List Message :=
  let sorted := (db.filter (fun m => m.room == room)).insertionSort tsLe
  sorted.drop (sorted.length - 50)

/-! ### Registry lemmas -/

@[simp] theorem socketJoin_id (sock : Socket) (room : String) :
    (socketJoin sock room).id = sock.id := by
  unfold socketJoin; split <;> rfl

@[simp] theorem socketJoin_pushToken (sock : Socket) (room : String) :
    (socketJoin sock room).pushToken = sock.pushToken := by
  unfold socketJoin; split <;> rfl

theorem regLookup_upsert_self (reg : Registry) (id : String) (s : Session) :
    regLookup (upsert reg id s) id = some s := by
  induction reg with
  | nil => simp [upsert, regLookup, List.find?]
  | cons p rest ih =>
    by_cases h : p.1 == id
    · simp [upsert, h, regLookup, List.find?]
    · simp only [upsert, h, Bool.false_eq_true, if_false]
      simpa [regLookup, List.find?, h] using ih

theorem mem_map_snd_of_regLookup {reg : Registry} {id : String} {s : Session}
    (h : regLookup reg id = some s) : s ∈ reg.map Prod.snd := by
  unfold regLookup at h
  rcases Option.map_eq_some'.mp h with ⟨p, hp, hps⟩
  exact hps ▸ List.mem_map_of_mem Prod.snd (List.mem_of_find?_eq_some hp)

theorem mem_membersOf_of_regLookup {reg : Registry} {id : String} {s : Session} {room : String}
    (h : regLookup reg id = some s) (hr : s.room = room) : s ∈ membersOf reg room := by
  unfold membersOf
  exact List.mem_filter.mpr ⟨mem_map_snd_of_regLookup h, by simp [hr]⟩

/-- The registry's keys (the socket ids it is indexed by). -/
def keysOf (reg : Registry) : List String := reg.map Prod.fst

/-- Well-formedness of the registry: every entry's stored `socketId`
equals the key it is filed under (true of every registry the handlers
build, since `joinRoom` stores `socketId: socket.id` under
`onlineUsers[socket.id]`). -/
def WFReg (reg : Registry) : Prop := ∀ p ∈ reg, p.2.socketId = p.1

theorem mem_keysOf_upsert {reg : Registry} {id x : String} {s : Session} :
    x ∈ keysOf (upsert reg id s) ↔ x ∈ keysOf reg ∨ x = id := by
  induction reg with
  | nil => simp [upsert, keysOf]
  | cons p rest ih =>
    by_cases h : p.1 == id
    · have hpe : p.1 = id := by simpa using h
      simp only [upsert, h, if_true, keysOf, List.map_cons, List.mem_cons]
      constructor
      · exact Or.inl
      · rintro (hx | hx)
        · exact hx
        · exact Or.inl (hx.trans hpe.symm)
    · simp only [upsert, h, Bool.false_eq_true, if_false, keysOf, List.map_cons,
        List.mem_cons]
      simp only [keysOf] at ih
      rw [ih]
      tauto

theorem nodup_keysOf_upsert {reg : Registry} {id : String} {s : Session}
    (h : (keysOf reg).Nodup) : (keysOf (upsert reg id s)).Nodup := by
  induction reg with
  | nil => simp [upsert, keysOf]
  | cons p rest ih =>
    simp only [keysOf, List.map_cons, List.nodup_cons] at h
    by_cases hb : p.1 == id
    · simp only [upsert, hb, if_true, keysOf, List.map_cons, List.nodup_cons]
      exact ⟨h.1, h.2⟩
    · have hne : p.1 ≠ id := by simpa using hb
      simp only [upsert, hb, Bool.false_eq_true, if_false, keysOf, List.map_cons,
        List.nodup_cons]
      refine ⟨fun hmem => ?_, ih h.2⟩
      rcases mem_keysOf_upsert.mp hmem with h1 | h1
      · exact h.1 h1
      · exact hne h1

theorem wfReg_upsert {reg : Registry} {id : String} {s : Session}
    (h : WFReg reg) (hs : s.socketId = id) : WFReg (upsert reg id s) := by
  induction reg with
  | nil =>
    intro p hp
    simp only [upsert, List.mem_singleton] at hp
    subst hp; simpa using hs
  | cons q rest ih =>
    intro p hp
    by_cases hb : q.1 == id
    · have hqe : q.1 = id := by simpa using hb
      simp only [upsert, hb, if_true, List.mem_cons] at hp
      rcases hp with hp | hp
      · subst hp; simpa [hqe] using hs
      · exact h p (List.mem_cons_of_mem q hp)
    · simp only [upsert, hb, Bool.false_eq_true, if_false, List.mem_cons] at hp
      rcases hp with hp | hp
      · subst hp; exact h p (List.mem_cons_self p rest)
      · exact ih (fun r hr => h r (List.mem_cons_of_mem q hr)) p hp

theorem membersOf_socketId_sublist {reg : Registry} (room : String) (h : WFReg reg) :
    List.Sublist ((membersOf reg room).map (fun u => u.socketId)) (keysOf reg) := by
  have h1 : List.Sublist ((membersOf reg room).map (fun u => u.socketId))
      ((reg.map Prod.snd).map (fun u => u.socketId)) :=
    (List.filter_sublist _).map _
  have h2 : (reg.map Prod.snd).map (fun u => u.socketId) = keysOf reg := by
    rw [List.map_map]
    exact List.map_congr_left (fun p hp => h p hp)
  rwa [h2] at h1

theorem nodup_membersOf_socketId {reg : Registry} (room : String)
    (hk : (keysOf reg).Nodup) (hw : WFReg reg) :
    ((membersOf reg room).map (fun u => u.socketId)).Nodup :=
  hk.sublist (membersOf_socketId_sublist room hw)

/-! ### Handler unfolding lemmas -/

theorem joinRoom_onlineUsers (st : ServerState) (sock : Socket) (username room : String)
    (now : Nat) (fetchOk : Bool) :
    (joinRoom st sock username room now fetchOk).1.onlineUsers =
      upsert st.onlineUsers sock.id
        { username := username, room := room, socketId := sock.id,
          pushToken := orNull sock.pushToken } := by
  cases fetchOk <;> simp [joinRoom, joinPhase1]

theorem joinRoom_events_ok (st : ServerState) (sock : Socket) (username room : String)
    (now : Nat) :
    (joinRoom st sock username room now true).2.2 =
      [Event.chatHistory sock.id (historyQuery st.db room),
       Event.message room "System" (username ++ " has joined the room") now true,
       Event.onlineUsers room
         (membersOf (upsert st.onlineUsers sock.id
           { username := username, room := room, socketId := sock.id,
             pushToken := orNull sock.pushToken }) room)] := by
  simp [joinRoom, joinPhase1, joinPhase2]

theorem joinRoom_sock (st : ServerState) (sock : Socket) (username room : String)
    (now : Nat) (fetchOk : Bool) :
    (joinRoom st sock username room now fetchOk).2.1 =
      { socketJoin sock room with username := some username, room := some room } := by
  cases fetchOk <;> rfl

theorem buildNotifications_to (isExpoPushToken : String → Bool) (username room body : String)
    (us : List Session) :
    ((buildNotifications isExpoPushToken username room body us).1.map (fun n => n.«to»)) =
      (us.filter (fun u => isExpoPushToken (tokenOf u))).map tokenOf := by
  induction us with
  | nil => rfl
  | cons u rest ih =>
    by_cases h : isExpoPushToken (tokenOf u)
    · simp [buildNotifications, h, ih]
    · simp [buildNotifications, h, ih]

theorem buildNotifications_logs (isExpoPushToken : String → Bool) (username room body : String)
    (us : List Session) :
    (buildNotifications isExpoPushToken username room body us).2 =
      (us.filter (fun u => !isExpoPushToken (tokenOf u))).map
        (fun u => "Invalid push token: " ++ tokenOf u) := by
  induction us with
  | nil => rfl
  | cons u rest ih =>
    by_cases h : isExpoPushToken (tokenOf u)
    · simp [buildNotifications, h, ih]
    · simp [buildNotifications, h, ih]

/-! ### History-query lemmas -/

theorem pairwise_historyQuery (db : List Message) (room : String) :
    List.Pairwise tsLe (historyQuery db room) := by
  have hs : List.Pairwise tsLe ((db.filter (fun m => m.room == room)).insertionSort tsLe) :=
    List.sorted_insertionSort tsLe _
  exact hs.sublist (List.take_sublist _ _)

theorem mem_of_mem_historyQuery {db : List Message} {room : String} {m : Message}
    (hm : m ∈ historyQuery db room) : m ∈ db.filter (fun x => x.room == room) := by
  have h1 : m ∈ (db.filter (fun x => x.room == room)).insertionSort tsLe :=
    (List.take_sublist _ _).subset hm
  exact (List.perm_insertionSort tsLe _).mem_iff.mp h1

theorem historyQuery_oldest (db : List Message) (room : String) :
    ∀ m ∈ historyQuery db room, ∀ m2 ∈ db.filter (fun x => x.room == room),
      m2 ∉ historyQuery db room → m.timestamp ≤ m2.timestamp := by
  intro m hm m2 hm2 hnot
  have hp : List.Pairwise tsLe ((db.filter (fun x => x.room == room)).insertionSort tsLe) :=
    List.sorted_insertionSort tsLe _
  have hl2 : ((db.filter (fun x => x.room == room)).insertionSort tsLe).take 50 ++
      ((db.filter (fun x => x.room == room)).insertionSort tsLe).drop 50 =
      (db.filter (fun x => x.room == room)).insertionSort tsLe :=
    List.take_append_drop 50 _
  have hcross := (List.pairwise_append.mp (hl2 ▸ hp)).2.2
  have hm2l : m2 ∈ (db.filter (fun x => x.room == room)).insertionSort tsLe :=
    (List.perm_insertionSort tsLe _).mem_iff.mpr hm2
  rw [← hl2] at hm2l
  rcases List.mem_append.mp hm2l with h | h
  · exact absurd h hnot
  · exact hcross m hm m2 h

theorem socketJoin_joinedRooms (sock : Socket) (room : String) :
    (socketJoin sock room).joinedRooms =
      if sock.joinedRooms.contains room then sock.joinedRooms
      else sock.joinedRooms ++ [room] := by
  unfold socketJoin; split <;> simp_all

theorem joinedRooms_sublist_socketJoin (sock : Socket) (room : String) :
    List.Sublist sock.joinedRooms (socketJoin sock room).joinedRooms := by
  rw [socketJoin_joinedRooms]; split
  · exact List.Sublist.refl _
  · exact List.sublist_append_left _ _

theorem socketJoin_contains_self (sock : Socket) (room : String) :
    (socketJoin sock room).joinedRooms.contains room = true := by
  rw [socketJoin_joinedRooms]; split
  · assumption
  · simp

theorem socketJoin_contains_mono (sock : Socket) (room r : String)
    (h : sock.joinedRooms.contains r = true) :
    (socketJoin sock room).joinedRooms.contains r = true := by
  rw [socketJoin_joinedRooms]; split
  · exact h
  · simp at h ⊢
    exact Or.inl h

theorem joinTwice_sock (st : ServerState) (sock : Socket) (uA roomA : String) (nowA : Nat)
    (uB roomB : String) (nowB : Nat) :
    (joinTwice st sock uA roomA nowA uB roomB nowB).2.1 =
      { socketJoin { socketJoin sock roomA with
          username := some uA, room := some roomA } roomB with
          username := some uB, room := some roomB } := rfl

/-! ### Concrete scenarios -/

/-- The server's initial state: empty registry, empty store, empty log. -/
def stEmpty : ServerState := { onlineUsers := [], db := [], logs := [] }

/-- A freshly connected socket with id "A". -/
def sockA : Socket :=
  { id := "A", username := none, room := none, pushToken := none, joinedRooms := [] }

/-- A freshly connected socket with id "B". -/
def sockB : Socket :=
  { id := "B", username := none, room := none, pushToken := none, joinedRooms := [] }

/-- Interleaved trace for the stale-snapshot counterexample: connection A
runs `joinRoom("alice", "lobby")` up to its `await Message.find` and
suspends. -/
def c1Phase1A : ServerState × Socket × List Session := joinPhase1 stEmpty sockA "alice" "lobby"

/-- While A is suspended, connection B's `joinRoom("bob", "lobby")` turn
runs to completion against the state A left behind. -/
def c1RunB : ServerState × Socket × List Event := joinRoom c1Phase1A.1 sockB "bob" "lobby" 1 true

/-- A's turn then resumes and emits its three events, broadcasting the
`roomUsers` snapshot it took before suspending. -/
def c1EventsA : List Event :=
  joinPhase2 c1Phase1A.2.1.id "alice" "lobby" c1Phase1A.2.2 (historyQuery c1RunB.1.db "lobby") 2

/-- Counterexample to claim C1 as stated: in the interleaved trace
`c1Phase1A; c1RunB; c1EventsA`, A's `onlineUsers` broadcast carries its
pre-await snapshot [alice], while the registry at the instant of that
broadcast (after B's join committed) holds [alice, bob] — the payload
does not equal the member set at the instant of the broadcast. -/
theorem c1_stale_snapshot_cex :
    Event.onlineUsers "lobby" c1Phase1A.2.2 ∈ c1EventsA ∧
    c1Phase1A.2.2 =
      [{ username := "alice", room := "lobby", socketId := "A", pushToken := none }] ∧
    membersOf c1RunB.1.onlineUsers "lobby" =
      [{ username := "alice", room := "lobby", socketId := "A", pushToken := none },
       { username := "bob", room := "lobby", socketId := "B", pushToken := none }] ∧
    c1Phase1A.2.2 ≠ membersOf c1RunB.1.onlineUsers "lobby" := by
  decide

/-- Claim C1, amended: the `onlineUsers` payload broadcast by a join
equals the registry's member set for the room as of the snapshot taken
immediately after the join's upsert (so, absent interleaving between the
snapshot and the broadcast — i.e. for an uninterleaved `joinRoom` turn —
it equals the member set at the broadcast, with no duplicate
connections), but it is the snapshot, not a re-read at broadcast time. -/
theorem c1_online_users_snapshot (st : ServerState) (sock : Socket) (username room : String)
    (now : Nat) (hk : (keysOf st.onlineUsers).Nodup) (hw : WFReg st.onlineUsers) :
    Event.onlineUsers room
        (membersOf (joinRoom st sock username room now true).1.onlineUsers room)
      ∈ (joinRoom st sock username room now true).2.2 ∧
    ((membersOf (joinRoom st sock username room now true).1.onlineUsers room).map
      (fun u => u.socketId)).Nodup := by
  rw [joinRoom_onlineUsers, joinRoom_events_ok]
  constructor
  · simp
  · exact nodup_membersOf_socketId room (nodup_keysOf_upsert hk) (wfReg_upsert hw rfl)

/-- Witness for C1's amended theorem at a concrete input. -/
theorem c1_online_users_snapshot_witness :
    Event.onlineUsers "lobby"
        (membersOf (joinRoom stEmpty sockA "alice" "lobby" 0 true).1.onlineUsers "lobby")
      ∈ (joinRoom stEmpty sockA "alice" "lobby" 0 true).2.2 ∧
    ((membersOf (joinRoom stEmpty sockA "alice" "lobby" 0 true).1.onlineUsers "lobby").map
      (fun u => u.socketId)).Nodup :=
  c1_online_users_snapshot stEmpty sockA "alice" "lobby" 0 (by decide)
    (fun p hp => absurd hp (List.not_mem_nil p))

/-- The `sendMessage` run for the C2 counterexample: the handler reads
the clock (value 5) when constructing the Message document, then awaits
the save. -/
def c2Run : ServerState × List Event × List PushNotification :=
  sendMessage stEmpty "alice" "lobby" "hi" 5 true (fun _ => false)

/-- Counterexample to claim C2 as stated: in an execution where the
clock reads 5 at document construction and the awaited save completes at
clock 7, the code broadcasts (and persists) timestamp 5 — a clock
reading taken before persistence completes — whereas a Store `append`
that assigns its timestamp at persistence time (spec-modelled
`specAppend`) would assign 7. -/
theorem c2_pre_persistence_timestamp_cex :
    c2Run.2.1 = [Event.message "lobby" "alice" "hi" 5 false] ∧
    c2Run.1.db = [{ username := "alice", room := "lobby", message := "hi", timestamp := 5 }] ∧
    (specAppend [] "alice" "lobby" "hi" 7).2 = 7 ∧
    (5 : Nat) ≠ (specAppend [] "alice" "lobby" "hi" 7).2 ∧
    (5 : Nat) < 7 := by
  decide

/-- Claim C2, amended: the broadcast `message` event's timestamp equals
the timestamp of the record the handler persists (both are the server's
`new Date()` reading taken when the Message document is constructed,
before the save is awaited); it is server-assigned — the client payload
carries no timestamp — but it is a pre-persistence clock reading, not
one assigned by the store at persistence time. -/
theorem c2_broadcast_timestamp (st : ServerState) (username room body : String) (now : Nat)
    (isExpoPushToken : String → Bool) :
    (sendMessage st username room body now true isExpoPushToken).2.1 =
      [Event.message room username body now false] ∧
    (sendMessage st username room body now true isExpoPushToken).1.db.getLast? =
      some { username := username, room := room, message := body, timestamp := now } := by
  constructor
  · rfl
  · show (st.db ++ [_]).getLast? = _
    simp

/-- Claim C3 (confirmed): when the Store append fails, `sendMessage`
broadcasts nothing, hands nothing to the push transport, leaves the
registry and the store untouched, and appends one error line to the log
(the message is lost — no queue or retry exists in the state). -/
theorem c3_append_failure_frame (st : ServerState) (username room body : String) (now : Nat)
    (isExpoPushToken : String → Bool) :
    (sendMessage st username room body now false isExpoPushToken).2.1 = [] ∧
    (sendMessage st username room body now false isExpoPushToken).2.2 = [] ∧
    (sendMessage st username room body now false isExpoPushToken).1.onlineUsers =
      st.onlineUsers ∧
    (sendMessage st username room body now false isExpoPushToken).1.db = st.db ∧
    (sendMessage st username room body now false isExpoPushToken).1.logs =
      st.logs ++ ["Error sending message"] :=
  ⟨rfl, rfl, rfl, rfl, rfl⟩

/-- A store holding 51 messages of room "r" with timestamps 0..50, in
insertion order. -/
def c4Db : List Message :=
  (List.range 51).map (fun i => { username := "u", room := "r", message := "m", timestamp := i })

/-- Counterexample to claim C4 as stated: with 51 persisted messages
(timestamps 0..50) the query `sort({timestamp: 1}).limit(50)` returns
the 50 OLDEST messages (timestamps 0..49), not the 50 most recent
(timestamps 1..50): the newest message, timestamp 50, is in the
spec-modelled most-recent-50 but missing from the delivered history. -/
theorem c4_oldest_not_most_recent_cex :
    (historyQuery c4Db "r").map (fun m => m.timestamp) = List.range 50 ∧
    (specMostRecent50 c4Db "r").map (fun m => m.timestamp) = (List.range 51).drop 1 ∧
    ({ username := "u", room := "r", message := "m", timestamp := 50 } : Message) ∈
      specMostRecent50 c4Db "r" ∧
    ({ username := "u", room := "r", message := "m", timestamp := 50 } : Message) ∉
      historyQuery c4Db "r" := by
  decide

/-- Claim C4, amended: the `chatHistory` delivered on join contains at
most 50 messages, all belonging to the joined room and all persisted,
ordered oldest-first — but they are the 50 OLDEST persisted messages of
the room (every room message left out of the history is no older than
every message in it), not the 50 most recent. -/
theorem c4_history_bounded_sorted_oldest (db : List Message) (room : String) :
    (historyQuery db room).length ≤ 50 ∧
    List.Pairwise tsLe (historyQuery db room) ∧
    (∀ m ∈ historyQuery db room, m.room = room ∧ m ∈ db) ∧
    (∀ m ∈ historyQuery db room, ∀ m2 ∈ db.filter (fun x => x.room == room),
      m2 ∉ historyQuery db room → m.timestamp ≤ m2.timestamp) := by
  refine ⟨?_, pairwise_historyQuery db room, ?_, historyQuery_oldest db room⟩
  · exact List.length_take_le 50 _
  · intro m hm
    have h2 := List.mem_filter.mp (mem_of_mem_historyQuery hm)
    exact ⟨by simpa using h2.2, h2.1⟩

/-- Counterexample to claim C5 as stated: when the history fetch of
`joinRoom` rejects, the registry upsert stands, but NO event at all is
emitted — in particular neither the system "has joined" broadcast nor
the refreshed `onlineUsers` broadcast occurs, because the single
try/catch wrapping the whole handler jumps past both emits. -/
theorem c5_fetch_failure_cex :
    (joinRoom stEmpty sockA "alice" "lobby" 0 false).2.2 = [] ∧
    Event.message "lobby" "System" "alice has joined the room" 0 true ∉
      (joinRoom stEmpty sockA "alice" "lobby" 0 false).2.2 ∧
    Event.onlineUsers "lobby"
        (membersOf (joinRoom stEmpty sockA "alice" "lobby" 0 false).1.onlineUsers "lobby") ∉
      (joinRoom stEmpty sockA "alice" "lobby" 0 false).2.2 ∧
    regLookup (joinRoom stEmpty sockA "alice" "lobby" 0 false).1.onlineUsers "A" =
      some { username := "alice", room := "lobby", socketId := "A", pushToken := none } := by
  decide

/-- Claim C5, amended: when the history fetch fails, the registry upsert
stands (the joiner is registered in the room) and the store is
untouched, but the private `chatHistory` delivery, the system "has
joined" broadcast AND the `onlineUsers` broadcast are all skipped; the
failure is logged and nothing is surfaced to other members. -/
theorem c5_fetch_failure_skips_all (st : ServerState) (sock : Socket)
    (username room : String) (now : Nat) :
    (joinRoom st sock username room now false).2.2 = [] ∧
    regLookup (joinRoom st sock username room now false).1.onlineUsers sock.id =
      some { username := username, room := room, socketId := sock.id,
             pushToken := orNull sock.pushToken } ∧
    (joinRoom st sock username room now false).1.db = st.db ∧
    (joinRoom st sock username room now false).1.logs =
      st.logs ++ ["Error joining room"] := by
  refine ⟨rfl, ?_, rfl, rfl⟩
  rw [joinRoom_onlineUsers]
  exact regLookup_upsert_self ..

/-- Counterexample to claim C6 as stated: a `joinRoom` whose username
and room are both the empty string is not rejected — the registry is
mutated (a session with empty fields is registered) and all three
outputs are emitted. -/
theorem c6_no_rejection_cex :
    (joinRoom stEmpty sockA "" "" 0 true).1.onlineUsers =
      [("A", { username := "", room := "", socketId := "A", pushToken := none })] ∧
    (joinRoom stEmpty sockA "" "" 0 true).1.onlineUsers ≠ stEmpty.onlineUsers ∧
    (joinRoom stEmpty sockA "" "" 0 true).2.2.length = 3 := by
  decide

/-- Claim C6, amended: the `joinRoom` handler performs no validation of
`username` or `room`: a join with empty values is processed like any
other — the session is registered under the socket's id with the empty
values and the three join outputs (history, system message, online
users) are emitted; no rejection path exists. -/
theorem c6_no_validation (st : ServerState) (sock : Socket) (now : Nat) :
    regLookup (joinRoom st sock "" "" now true).1.onlineUsers sock.id =
      some { username := "", room := "", socketId := sock.id,
             pushToken := orNull sock.pushToken } ∧
    (joinRoom st sock "" "" now true).2.2.length = 3 := by
  constructor
  · rw [joinRoom_onlineUsers]
    exact regLookup_upsert_self ..
  · rw [joinRoom_events_ok]
    rfl

/-- Counterexample to claim C7 as stated: after `registerPushToken` and
`joinRoom`, the room-wide `onlineUsers` broadcast carries the member's
full registry entry, whose `pushToken` field is the registered token —
the push token IS included in the room-wide payload. -/
theorem c7_push_token_leak_cex :
    Event.onlineUsers "lobby"
        [{ username := "alice", room := "lobby", socketId := "A", pushToken := some "tokA" }] ∈
      (joinRoom (registerPushToken stEmpty sockA "tokA").1
        (registerPushToken stEmpty sockA "tokA").2 "alice" "lobby" 0 true).2.2 ∧
    (some "tokA" : Option String) ≠ none := by
  decide

/-- Claim C7, amended: each entry of the room-wide `onlineUsers` payload
is a full registry session `{ username, room, socketId, pushToken }` —
including the member's `pushToken`: a joiner who registered a non-empty
token appears in the broadcast member list with that token attached. -/
theorem c7_payload_carries_push_token (st : ServerState) (sock : Socket)
    (username room tok : String) (now : Nat) (h : tok ≠ "") :
    ({ username := username, room := room, socketId := sock.id,
       pushToken := some tok } : Session)
      ∈ membersOf
          (joinRoom (registerPushToken st sock tok).1 (registerPushToken st sock tok).2
            username room now true).1.onlineUsers room ∧
    Event.onlineUsers room
        (membersOf (joinRoom (registerPushToken st sock tok).1
            (registerPushToken st sock tok).2 username room now true).1.onlineUsers room)
      ∈ (joinRoom (registerPushToken st sock tok).1 (registerPushToken st sock tok).2
            username room now true).2.2 := by
  have hid : (registerPushToken st sock tok).2.id = sock.id := rfl
  have hpt : (registerPushToken st sock tok).2.pushToken = some tok := rfl
  have horn : orNull (some tok) = some tok := by simp [orNull, jsTruthy, h]
  constructor
  · rw [joinRoom_onlineUsers, hid, hpt, horn]
    exact mem_membersOf_of_regLookup (regLookup_upsert_self ..) rfl
  · rw [joinRoom_onlineUsers, joinRoom_events_ok]
    simp

/-- Witness for C7's amended theorem at a concrete input. -/
theorem c7_payload_carries_push_token_witness :
    ({ username := "alice", room := "lobby", socketId := "A",
       pushToken := some "tokB" } : Session)
      ∈ membersOf
          (joinRoom (registerPushToken stEmpty sockA "tokB").1
            (registerPushToken stEmpty sockA "tokB").2
            "alice" "lobby" 0 true).1.onlineUsers "lobby" ∧
    Event.onlineUsers "lobby"
        (membersOf (joinRoom (registerPushToken stEmpty sockA "tokB").1
            (registerPushToken stEmpty sockA "tokB").2
            "alice" "lobby" 0 true).1.onlineUsers "lobby")
      ∈ (joinRoom (registerPushToken stEmpty sockA "tokB").1
            (registerPushToken stEmpty sockA "tokB").2 "alice" "lobby" 0 true).2.2 :=
  c7_payload_carries_push_token stEmpty sockA "alice" "lobby" "tokB" 0 (by decide)

/-- Claim C8 (confirmed): provided the delivery transport rejects the
empty token (`isExpoPushToken "" = false`, true of Expo's syntactic
check), the tokens handed to the push transport by a `sendMessage`
dispatch are exactly those of the sessions in the room whose username
differs from the sender's and whose pushToken is present and
syntactically valid; each session whose token reaches the loop but is
invalid is logged individually, and the valid recipients are still all
dispatched (the batch is not aborted). -/
theorem c8_dispatch_recipients (reg : Registry) (username room body : String)
    (isExpoPushToken : String → Bool) (h : isExpoPushToken "" = false) :
    ((buildNotifications isExpoPushToken username room body
        (sendRoomUsers reg username room)).1.map (fun n => n.«to»)) =
      ((reg.map Prod.snd).filter (fun u =>
        u.room == room && u.username != username && u.pushToken.isSome &&
          isExpoPushToken (tokenOf u))).map tokenOf ∧
    (buildNotifications isExpoPushToken username room body
        (sendRoomUsers reg username room)).2 =
      ((sendRoomUsers reg username room).filter
        (fun u => !isExpoPushToken (tokenOf u))).map
        (fun u => "Invalid push token: " ++ tokenOf u) := by
  refine ⟨?_, buildNotifications_logs ..⟩
  rw [buildNotifications_to, sendRoomUsers, List.filter_filter]
  apply congrArg (List.map tokenOf)
  apply List.filter_congr
  intro u _
  cases hu : u.pushToken with
  | none => simp [jsTruthy, tokenOf, hu]
  | some s =>
    by_cases hs : s = ""
    · subst hs
      simp [jsTruthy, tokenOf, hu, h]
    · simp only [jsTruthy, tokenOf, hu, Option.getD_some, Option.isSome_some]
      cases hv : isExpoPushToken s <;>
        cases hr : (u.room == room) <;>
          cases hn : (u.username != username) <;> simp [hs]

/-- A registry for the C8 witness: one valid recipient, one invalid
token, one member without a token, one member in another room. -/
def c8Reg : Registry :=
  [("A", { username := "alice", room := "lobby", socketId := "A", pushToken := some "good" }),
   ("B", { username := "bob", room := "lobby", socketId := "B", pushToken := some "bad" }),
   ("C", { username := "carol", room := "lobby", socketId := "C", pushToken := none }),
   ("D", { username := "dan", room := "other", socketId := "D", pushToken := some "good" })]

/-- A concrete syntactic token check for the C8 witness. -/
def c8Valid : String → Bool := fun s => s == "good"

/-- Witness for C8 at a concrete input. -/
theorem c8_dispatch_recipients_witness :
    ((buildNotifications c8Valid "bob" "lobby" "hi"
        (sendRoomUsers c8Reg "bob" "lobby")).1.map (fun n => n.«to»)) =
      ((c8Reg.map Prod.snd).filter (fun u =>
        u.room == "lobby" && u.username != "bob" && u.pushToken.isSome &&
          c8Valid (tokenOf u))).map tokenOf ∧
    (buildNotifications c8Valid "bob" "lobby" "hi"
        (sendRoomUsers c8Reg "bob" "lobby")).2 =
      ((sendRoomUsers c8Reg "bob" "lobby").filter
        (fun u => !c8Valid (tokenOf u))).map
        (fun u => "Invalid push token: " ++ tokenOf u) :=
  c8_dispatch_recipients c8Reg "bob" "lobby" "hi" c8Valid (by decide)

/-- Claim C9 (confirmed): a disconnect of a connection with no registry
entry is a complete no-op — the state (registry, store, log) is returned
unchanged and no event is broadcast. -/
theorem c9_disconnect_never_joined (st : ServerState) (sockId : String) (now : Nat)
    (h : regLookup st.onlineUsers sockId = none) :
    disconnect st sockId now = (st, []) := by
  unfold disconnect
  rw [h]

/-- Witness for C9 at a concrete input. -/
theorem c9_disconnect_never_joined_witness :
    disconnect stEmpty "Z" 0 = (stEmpty, []) :=
  c9_disconnect_never_joined stEmpty "Z" 0 rfl

/-- Claim C10 (confirmed): after joining room A and then a different
room B on the same connection, the socket's transport-level room set has
only grown (the original set is a sublist of the final one) and contains
both A and B — so `io.to(A)`-addressed broadcasts still deliver to the
connection — while the registry records only room B for it. -/
theorem c10_transport_rooms_grow (st : ServerState) (sock : Socket)
    (uA roomA uB roomB : String) (nowA nowB : Nat) (h : roomA ≠ roomB) :
    List.Sublist sock.joinedRooms
      (joinTwice st sock uA roomA nowA uB roomB nowB).2.1.joinedRooms ∧
    inBroadcast roomA (joinTwice st sock uA roomA nowA uB roomB nowB).2.1 = true ∧
    inBroadcast roomB (joinTwice st sock uA roomA nowA uB roomB nowB).2.1 = true ∧
    regLookup (joinTwice st sock uA roomA nowA uB roomB nowB).1.onlineUsers sock.id =
      some { username := uB, room := roomB, socketId := sock.id,
             pushToken := orNull sock.pushToken } ∧
    roomB ≠ roomA := by
  have hid : (joinRoom st sock uA roomA nowA true).2.1.id = sock.id := by
    rw [joinRoom_sock]
    exact socketJoin_id ..
  have hpt : (joinRoom st sock uA roomA nowA true).2.1.pushToken = sock.pushToken := by
    rw [joinRoom_sock]
    exact socketJoin_pushToken ..
  have hreg : (joinTwice st sock uA roomA nowA uB roomB nowB).1.onlineUsers =
      upsert (joinRoom st sock uA roomA nowA true).1.onlineUsers sock.id
        { username := uB, room := roomB, socketId := sock.id,
          pushToken := orNull sock.pushToken } := by
    show (joinRoom (joinRoom st sock uA roomA nowA true).1
        (joinRoom st sock uA roomA nowA true).2.1 uB roomB nowB true).1.onlineUsers = _
    rw [joinRoom_onlineUsers, hid, hpt]
  refine ⟨?_, ?_, ?_, ?_, h.symm⟩
  · rw [joinTwice_sock]
    exact (joinedRooms_sublist_socketJoin sock roomA).trans
      (joinedRooms_sublist_socketJoin
        { socketJoin sock roomA with username := some uA, room := some roomA } roomB)
  · rw [joinTwice_sock]
    exact socketJoin_contains_mono _ roomB roomA (socketJoin_contains_self sock roomA)
  · rw [joinTwice_sock]
    exact socketJoin_contains_self ..
  · rw [hreg]
    exact regLookup_upsert_self ..

/-- Witness for C10 at a concrete input. -/
theorem c10_transport_rooms_grow_witness :
    List.Sublist sockA.joinedRooms
      (joinTwice stEmpty sockA "alice" "red" 0 "alice" "blue" 1).2.1.joinedRooms ∧
    inBroadcast "red" (joinTwice stEmpty sockA "alice" "red" 0 "alice" "blue" 1).2.1 = true ∧
    inBroadcast "blue" (joinTwice stEmpty sockA "alice" "red" 0 "alice" "blue" 1).2.1 = true ∧
    regLookup (joinTwice stEmpty sockA "alice" "red" 0 "alice" "blue" 1).1.onlineUsers
        sockA.id =
      some { username := "alice", room := "blue", socketId := sockA.id,
             pushToken := orNull sockA.pushToken } ∧
    "blue" ≠ "red" :=
  c10_transport_rooms_grow stEmpty sockA "alice" "red" "alice" "blue" 0 1 (by decide)
